import Mathlib

/-!
Shallow embedding of the mount-table resolution subsystem of lsof
(`src/lib/dialects/linux/dmnt.c`), compiled with `HASMNTSUP` and `HASEOPT`
defined.  C strings are modelled as `List Char` (characters taken as their
unsigned byte values; a C string never contains an embedded NUL inside its
`strlen`).  External collaborators (`Readlink`, `statsafely`, the `-e`
exemption list `Efsysl`, the `/proc/mounts` field stream produced by
`get_fields`, and the mount supplement file contents) are modelled as an
explicit environment record.  Machine integers (`dev_t` and friends) are
modelled as `Nat`; the only place where C overflow is reachable is the
hexadecimal accumulation of a supplement device number, where a reduction
modulo `2 ^ 64` (64-bit `dev_t`) is written explicitly.  Heap exhaustion
(`malloc` failure paths calling `Error`) is not modelled: allocation always
succeeds.  Diagnostics written to `ctx->err` are output only and are not
modelled.
-/

namespace Dmnt

/-- `String.toList` shorthand used to write C string literals. -/
def strL (s : String) : List Char := s.toList

/-- C `tolower` in the C locale, as applied to ASCII bytes. -/
def c_tolower (c : Char) : Char :=
  if 'A' ≤ c && c ≤ 'Z' then Char.ofNat (c.toNat + 32) else c

/-- Equality of two C strings under `strcasecmp` (compare `tolower` images). -/
def streqCI (a b : List Char) : Bool :=
  a.map c_tolower == b.map c_tolower

/-- C `isdigit` on ASCII. -/
def isdigitC (c : Char) : Bool := '0' ≤ c && c ≤ '9'

/-- C `isxdigit` on ASCII. -/
def isxdigitC (c : Char) : Bool :=
  isdigitC c || ('a' ≤ c && c ≤ 'f') || ('A' ≤ c && c ≤ 'F')

/-- Value of one hexadecimal digit, as assembled by `getmntdev`:
`isdigit` digits give `c - '0'`, letters give `tolower(c) - 'a' + 10`. -/
def hexval (c : Char) : Nat :=
  if isdigitC c then c.toNat - '0'.toNat else (c_tolower c).toNat - 'a'.toNat + 10

/-- Is `c` an octal digit (`'0' ≤ c ≤ '7'`), the test of the inner loop of
`convert_octal_escaped`. -/
def isOctalDigit (c : Char) : Bool := '0' ≤ c && c ≤ '7'

/-- `c - '0'` for an octal digit. -/
def octVal (c : Char) : Nat := c.toNat - '0'.toNat

/-- The copying loop of `convert_octal_escaped` (dmnt.c lines 88-148).
The C loop walks `orig_idx` over the input; a backslash is treated as a
candidate escape only when `orig_idx + 3 < orig_len`, i.e. when at least
three characters follow it, which is exactly the four-element list pattern
below.  When the three following characters are all octal digits
(`temp_idx` reaches 4), the escape and digits are replaced by
`temp_ch & 0xff`; otherwise the backslash alone is copied and scanning
resumes at the character after it. -/
def cvtLoop : List Char → List Char
  | '\\' :: d1 :: d2 :: d3 :: rest =>
    if isOctalDigit d1 && isOctalDigit d2 && isOctalDigit d3 then
      Char.ofNat ((octVal d1 * 64 + octVal d2 * 8 + octVal d3) % 256) :: cvtLoop rest
    else
      '\\' :: cvtLoop (d1 :: d2 :: d3 :: rest)
  | c :: rest => c :: cvtLoop rest
  | [] => []

/-- `convert_octal_escaped` (dmnt.c lines 64-155): returns `NULL` (here
`none`) for an empty input, otherwise the converted copy.  The `malloc` /
`realloc` failure paths are not modelled. -/
def convert_octal_escaped (orig : List Char) : Option (List Char) :=
  if orig.isEmpty then none else some (cvtLoop orig)

/-- `HASHMNT` (dmnt.c lines 38-40): the mount supplement hash bucket
count, a power of two. -/
def HASHMNT : Nat := 128

/-- The pairwise product-and-shift loop of `hash_mnt` (dmnt.c lines
414-416): for `i` from 0 to `l-2`,
`h ^= (dir_name[i] * dir_name[i+1]) << ((i * 3) % 13)`. -/
def hashLoop : List Char → Nat → Nat → Nat
  | c1 :: c2 :: rest, i, h =>
      hashLoop (c2 :: rest) (i + 1) (h ^^^ ((c1.toNat * c2.toNat) <<< ((i * 3) % 13)))
  | _, _, h => h

/-- `hash_mnt` (dmnt.c lines 406-418): hash of a mount point directory
name; empty string hashes to 0, a one-character string to its character
masked by `HASHMNT - 1`, longer strings through `hashLoop` masked the same
way. -/
def hash_mnt (dir_name : List Char) : Nat :=
  match dir_name with
  | [] => 0
  | [c] => c.toNat &&& (HASHMNT - 1)
  | l => (hashLoop l 0 0) &&& (HASHMNT - 1)

/-- `struct stat` restricted to the four fields `readmnt` consumes. -/
structure StatBuf where
  st_dev : Nat
  st_rdev : Nat
  st_ino : Nat
  st_mode : Nat
deriving DecidableEq, Repr

/-- The all-zero `struct stat`, also standing in for the C stack buffer in
states where no field of it may be read (every read of the buffer in
`readmnt` is guarded by an `SB_*` validity bit). -/
def sb0 : StatBuf := ⟨0, 0, 0, 0⟩

/-- The `SB_*` validity bits of the `ss` / `ds` status words, one Bool per
bit consumed by `readmnt` (`SB_DEV`, `SB_RDEV`, `SB_INO`, `SB_MODE`). -/
structure SBFlags where
  dev : Bool
  rdev : Bool
  ino : Bool
  mode : Bool
deriving DecidableEq, Repr

/-- `SB_ALL`: every validity bit set (assigned after a successful stat). -/
def SB_ALL : SBFlags := ⟨true, true, true, true⟩

/-- `ds = 0`: no validity bit set. -/
def SB_NONE : SBFlags := ⟨false, false, false, false⟩

/-- `mntsup_t`: one mount supplement hash entry. -/
structure MntSupEntry where
  dir_name : List Char
  dir_name_len : Nat
  dev : Nat
  ln : Nat
deriving DecidableEq, Repr

/-- The mount supplement portion of the context: `ctxd.mount_sup_error`
and the `MSHash` bucket array (`none` while unallocated; buckets are
indexed by the masked hash value, which `hash_mnt` keeps below
`HASHMNT`). -/
structure SupState where
  error : Bool
  table : Option (Nat → List MntSupEntry)

/-- The initial supplement state: no error recorded, `MSHash` null. -/
def supInit : SupState := ⟨false, none⟩

/-- Splits a C string at its first space: `strchr(buf, ' ')`.  Returns the
part before the space and the part after it, or `none` when there is no
space. -/
def splitFirstSpace : List Char → Option (List Char × List Char)
  | [] => none
  | c :: rest =>
    if c = ' ' then some ([], rest)
    else
      match splitFirstSpace rest with
      | some (a, b) => some (c :: a, b)
      | none => none

/-- The hexadecimal accumulation loop of `getmntdev` (dmnt.c lines
254-273): consume characters while they are `isxdigit`, shifting each into
the device number; if a non-hex character remains before the terminator
the device number "couldn't be assembled" and the line is malformed
(`none`).  An empty digit string is accepted with value 0, exactly as in
the C (the loop body never runs and `*dp` is already the terminator).
`dev_t` is 64 bits wide, hence the reduction modulo `2 ^ 64`. -/
def parseHexAll : List Char → Nat → Option Nat
  | [], acc => some acc
  | c :: rest, acc =>
    if isxdigitC c then parseHexAll rest ((acc * 16 + hexval c) % (2 ^ 64)) else none

/-- Per-line validation and parsing of a mount supplement line (dmnt.c
lines 218-273): the line must begin with `'/'`; there must be a space and
the two characters after it must be `"0x"`; everything after the `"0x"`
must be hexadecimal digits.  On success returns the path (the part before
the first space) and the assembled device number; `none` marks the line
malformed (each malformed line sets `ctxd.mount_sup_error`). -/
def parseSupLine (line : List Char) : Option (List Char × Nat) :=
  match line with
  | [] => none
  | c :: _ =>
    if c ≠ '/' then none
    else
      match splitFirstSpace line with
      | none => none
      | some (path, rest) =>
        if rest.take 2 ≠ strL "0x" then none
        else
          match parseHexAll (rest.drop 2) 0 with
          | none => none
          | some dev => some (path, dev)

/-- The bucket search performed while building the supplement table
(dmnt.c lines 293-297).  Note the comparison `mp->dir_name_len ==
dir_name_len`: the length compared against is `getmntdev`'s *parameter*
(the length of the directory whose lookup triggered construction), not
`sz`, the length of the path on the current supplement line. -/
def supBuildFind (bucket : List MntSupEntry) (path : List Char) (dir_name_len : Nat) :
    Option MntSupEntry :=
  bucket.find? (fun mp => mp.dir_name_len == dir_name_len && mp.dir_name == path)

/-- Intermediate state of the supplement-file reading loop: the error
flag, the bucket array (allocated on the first valid line), and the
current line number `ln`. -/
structure BuildSt where
  error : Bool
  table : Option (Nat → List MntSupEntry)
  ln : Nat

/-- One iteration of the supplement-file reading loop of `getmntdev`
(dmnt.c lines 218-347): bump `ln`, validate and parse the line (malformed
lines set the error flag and continue), allocate the bucket array if
needed, search the line's bucket, and either flag a duplicate with a
different device number, skip a duplicate with the same device number, or
prepend a fresh entry to the bucket. -/
def buildStep (dir_name_len : Nat) (st : BuildSt) (line : List Char) : BuildSt :=
  let st := { st with ln := st.ln + 1 }
  match parseSupLine line with
  | none => { st with error := true }
  | some (path, dev) =>
    let tbl := st.table.getD (fun _ => [])
    let h := hash_mnt path
    match supBuildFind (tbl h) path dir_name_len with
    | some mp =>
      if mp.dev ≠ dev then { st with error := true, table := some tbl }
      else { st with table := some tbl }
    | none =>
      let tbl2 : Nat → List MntSupEntry :=
        fun j => if j = h then ⟨path, path.length, dev, st.ln⟩ :: tbl j else tbl j
      { st with table := some tbl2 }

/-- Reading the whole supplement file (dmnt.c lines 218-371): fold
`buildStep` over the lines; if any error was recorded, free the buckets
(the table becomes null again) and leave the error flag set for the rest
of the context's lifetime. -/
def buildSup (dir_name_len : Nat) (lines : List (List Char)) : SupState :=
  let b := lines.foldl (buildStep dir_name_len) ⟨false, none, 0⟩
  if b.error then ⟨true, none⟩ else ⟨false, b.table⟩

/-- The lookup search of `getmntdev` (dmnt.c lines 382-392): search the
bucket of `dir_name` for an entry with equal recorded length and equal
path. -/
def supLookup (tbl : Nat → List MntSupEntry) (dir_name : List Char) (dir_name_len : Nat) :
    Option MntSupEntry :=
  (tbl (hash_mnt dir_name)).find?
    (fun mp => dir_name_len == mp.dir_name_len && dir_name == mp.dir_name)

/-- `-e` exemption list element (`efsys_list_t`): an exempted path and its
`rdlnk` flag (exempt from `Readlink` as well as from `stat`). -/
structure Efsys where
  path : List Char
  rdlnk : Bool
deriving DecidableEq, Repr

/-- One field triple of a `/proc/mounts` line as produced by
`get_fields`: device name, mount point and file system type (lines with
fewer than three fields are skipped by `readmnt` before any processing and
are therefore not part of the modelled stream). -/
structure MntLine where
  fp0 : List Char
  fp1 : List Char
  fp2 : List Char
deriving DecidableEq, Repr

/-- The external collaborators and configuration consumed by `readmnt`
and `getmntdev`:
* `mounts`: the field triples of `/proc/mounts`, `none` when the pseudo
  file cannot be opened;
* `readlink`: `Readlink`, `none` on failure;
* `stat`: `statsafely`, `none` on nonzero return;
* `efsysl`: the `-e` exemption list `Efsysl`;
* `mntSup` / `mntSupP`: the `MntSup` mode (2 = lookup on stat failure)
  and whether a supplement file path `MntSupP` is set;
* `supLines`: the supplement file's lines, `none` when the file is not
  readable or cannot be opened. -/
structure Env where
  mounts : Option (List MntLine)
  readlink : List Char → Option (List Char)
  stat : List Char → Option StatBuf
  efsysl : List Efsys
  mntSup : Nat
  mntSupP : Bool
  supLines : Option (List (List Char))

/-- Result record of `getmntdev`: the return value (1 = found), the stat
buffer and status word as left by the call, and the updated supplement
state. -/
structure GmdResult where
  found : Bool
  s : StatBuf
  ss : SBFlags
  sup : SupState

/-- The lookup tail of `getmntdev` (dmnt.c lines 378-393): on a hit the
stat buffer is zeroed in full (`zeromem`), `st_dev` receives the entry's
device number, and `SB_DEV` is OR-ed into the status word. -/
def gmdLookup (tbl : Nat → List MntSupEntry) (sup : SupState) (dir_name : List Char)
    (dir_name_len : Nat) (s : StatBuf) (ss : SBFlags) : GmdResult :=
  match supLookup tbl dir_name dir_name_len with
  | some mp => ⟨true, ⟨mp.dev, 0, 0, 0⟩, { ss with dev := true }, sup⟩
  | none => ⟨false, s, ss, sup⟩

/-- `getmntdev` (dmnt.c lines 163-401).  An already-recorded supplement
error makes every call return 0 immediately.  If the bucket array is
still null, the supplement file is read and the buckets are built (only
in mode `MntSup == 2` with a supplement path configured; an unreadable or
unopenable file records the error).  Any error recorded while reading
leaves the table freed and the error flag permanently set, and the call
returns 0.  Otherwise the directory name is looked up in its bucket.
(For a supplement file whose reading produced no entries and no error the
C dereferences the null `MSHash`; that unreachable-in-practice crash is
modelled as an ordinary miss.) -/
def getmntdev (env : Env) (sup : SupState) (dir_name : List Char) (dir_name_len : Nat)
    (s : StatBuf) (ss : SBFlags) : GmdResult :=
  if sup.error then ⟨false, s, ss, sup⟩
  else
    match sup.table with
    | some tbl => gmdLookup tbl sup dir_name dir_name_len s ss
    | none =>
      if env.mntSup ≠ 2 ∨ env.mntSupP = false then ⟨false, s, ss, sup⟩
      else
        match env.supLines with
        | none => ⟨false, s, ss, ⟨true, none⟩⟩
        | some lines =>
          let sup2 := buildSup dir_name_len lines
          if sup2.error then ⟨false, s, ss, sup2⟩
          else
            match sup2.table with
            | none => ⟨false, s, ss, sup2⟩
            | some tbl => gmdLookup tbl sup2 dir_name dir_name_len s ss

/-- The file system type tags `N_REGLR`, `N_NFS`, `N_MQUEUE` taken by
`mp->ty` in `readmnt`. -/
inductive MntTy where
  | N_REGLR
  | N_NFS
  | N_MQUEUE
deriving DecidableEq, Repr

/-- `struct mounts` restricted to the fields written by `readmnt`
(`next` is represented by the position in the list). -/
structure Mounts where
  dir : List Char
  dirl : Nat
  ds : SBFlags
  dev : Nat
  rdev : Nat
  inode : Nat
  mode : Nat
  ty : MntTy
  fsname : List Char
  fsnmres : Option (List Char)
  fs_mode : Nat
deriving DecidableEq, Repr

/-- The mutable context state threaded through `readmnt`: the local mount
table list `Lmi` (head = most recently linked entry), the `Lmist` flag,
`HasNFS`, `MqueueDev` and the supplement state. -/
structure MntState where
  lmi : List Mounts
  lmist : Bool
  hasNFS : Nat
  mqueueDev : Nat
  sup : SupState

/-- A fresh context's mount state. -/
def mntInit : MntState := ⟨[], false, 0, 0, supInit⟩

/-- The part of the device name after its first `':'`, if any
(`strchr(fp0, ':')` followed by `++cp`). -/
def afterFirstColon : List Char → Option (List Char)
  | [] => none
  | c :: rest => if c = ':' then some rest else afterFirstColon rest

/-- The automounter placeholder test of `readmnt` (dmnt.c lines 483-485):
a colon in the converted device name followed case-insensitively by
`"(pid"`. -/
def automount_skip (fp0 : List Char) : Bool :=
  match afterFirstColon fp0 with
  | none => false
  | some rest => (rest.take 4).map c_tolower == strL "(pid"

/-- The `-e` list walk of `readmnt` (dmnt.c lines 499-518): first
exact-path match wins, yielding `(ignrdl, ignstat) = (ep->rdlnk, 1)`;
no match (or an empty list) yields `(0, 0)`. -/
def efsys_lookup : List Efsys → List Char → Bool × Bool
  | [], _ => (false, false)
  | e :: rest, dn => if e.path == dn then (e.rdlnk, true) else efsys_lookup rest dn

/-- The per-line data computed by the front part of the `readmnt` loop
body, before the duplicate test. -/
structure PreInfo where
  fp0 : List Char
  dn : List Char
  dnl : Nat
  ignrdl : Bool
  ignstat : Bool
  isNfs : Bool
  isMqueue : Bool
deriving DecidableEq, Repr

/-- The front part of the `readmnt` loop body (dmnt.c lines 456-557):
octal-escape conversion of the device name and mount point fields,
automounter and autofs/pipefs/sockfs skips, the `-e` exemption lookup,
symbolic link interpolation of the mount point (failure drops the line),
the leading-`'/'` requirement, and the case-insensitive NFS test
(`strcasecmp` against `nfs`, `nfs3`, `nfs4`) together with the
case-sensitive mqueue test (`strcmp(fp[2], "mqueue")`).  `none` means the
line is skipped. -/
def readmnt_pre (env : Env) (l : MntLine) : Option PreInfo :=
  match convert_octal_escaped l.fp0, convert_octal_escaped l.fp1 with
  | some fp0, some fp1 =>
    if automount_skip fp0 then none
    else if streqCI l.fp2 (strL "autofs") || streqCI l.fp2 (strL "pipefs")
        || streqCI l.fp2 (strL "sockfs") then none
    else
      let ei := efsys_lookup env.efsysl fp1
      match (if ei.1 then some fp1 else env.readlink fp1) with
      | none => none
      | some dn =>
        if dn.head? = some '/' then
          some { fp0 := fp0, dn := dn, dnl := dn.length, ignrdl := ei.1, ignstat := ei.2,
                 isNfs := streqCI l.fp2 (strL "nfs") || streqCI l.fp2 (strL "nfs3")
                   || streqCI l.fp2 (strL "nfs4"),
                 isMqueue := l.fp2 == strL "mqueue" }
        else none
  | _, _ => none

/-- The duplicate-directory search of `readmnt` (dmnt.c lines 550-553):
walk `Lmi` from its head for an entry with equal length and equal
directory, returning its position and the entry. -/
def findDup : List Mounts → List Char → Nat → Option (Nat × Mounts)
  | [], _, _ => none
  | m :: rest, dn, dnl =>
    if m.dirl == dnl && m.dir == dn then some (0, m)
    else
      match findDup rest dn dnl with
      | some (i, e) => some (i + 1, e)
      | none => none

/-- The supplement consultation of `readmnt` when `fr` is set, i.e. when
the stat failed or was not allowed (dmnt.c lines 595-616): with the
supplement configured (`MntSup == 2` and `MntSupP`), `ds` is cleared and
`getmntdev` may fill the stat buffer — and the line is kept whether or not
the lookup succeeds; without it, a line that was not explicitly exempted
from stat is dropped (`none`), while an exempted one is kept with
`ds = 0`. -/
def supPhase (env : Env) (sup : SupState) (p : PreInfo) :
    Option (SBFlags × StatBuf × SupState) :=
  if env.mntSup = 2 ∧ env.mntSupP = true then
    let r := getmntdev env sup p.dn p.dnl sb0 SB_NONE
    some (r.ss, r.s, r.sup)
  else if p.ignstat then some (SB_NONE, sb0, sup)
  else none

/-- The stat phase of `readmnt` (dmnt.c lines 578-623): an exempted line
skips the stat (`fr = 1`); otherwise a successful `statsafely` yields
`ds = SB_ALL` with the filled buffer, and a failure falls into
`supPhase`.  `none` means the line is dropped. -/
def statPhase (env : Env) (sup : SupState) (p : PreInfo) :
    Option (SBFlags × StatBuf × SupState) :=
  if p.ignstat then supPhase env sup p
  else
    match env.stat p.dn with
    | some sb => some (SB_ALL, sb, sup)
    | none => supPhase env sup p

/-- The mounted-on (source) name interpolation of `readmnt` (dmnt.c lines
702-726): when `Readlink` is exempted or the device name is not absolute,
the name is copied verbatim and the secondary stat is suppressed
(`ignstat = 1`); otherwise the name is resolved (a failed `Readlink`
leaves `fsnmres` null).  The secondary `statsafely` fills `fs_mode`, with
0 on any suppressed or failed path. -/
def fsnmPhase (env : Env) (p : PreInfo) : Option (List Char) × Nat :=
  if p.ignrdl || p.fp0.head? ≠ some '/' then (some p.fp0, 0)
  else
    match env.readlink p.fp0 with
    | none => (none, 0)
    | some ln =>
      (some ln,
        if p.ignstat then 0
        else
          match env.stat ln with
          | none => 0
          | some sb2 => sb2.st_mode)

/-- Assembly of a `struct mounts` entry (dmnt.c lines 656-726): each
stat-derived field is stored only when its `SB_*` validity bit is set and
is stored as 0 otherwise; the type tag is NFS when the case-insensitive
NFS test succeeded, else message-queue when `strcmp(fp[2], "mqueue")`
returned 0, else regular. -/
def mkEntry (env : Env) (p : PreInfo) (ds : SBFlags) (sb : StatBuf) : Mounts :=
  { dir := p.dn
    dirl := p.dnl
    ds := ds
    dev := if ds.dev then sb.st_dev else 0
    rdev := if ds.rdev then sb.st_rdev else 0
    inode := if ds.ino then sb.st_ino else 0
    mode := if ds.mode then sb.st_mode else 0
    ty := if p.isNfs then MntTy.N_NFS else if p.isMqueue then MntTy.N_MQUEUE else MntTy.N_REGLR
    fsname := p.fp0
    fsnmres := (fsnmPhase env p).1
    fs_mode := (fsnmPhase env p).2 }

/-- The `HasNFS = 2` / `MqueueDev` updates performed while filling an
entry (dmnt.c lines 665-674). -/
def postFlags (st : MntState) (p : PreInfo) (e : Mounts) : MntState :=
  if p.isNfs then (if st.hasNFS < 2 then { st with hasNFS := 2 } else st)
  else if p.isMqueue then { st with mqueueDev := e.dev }
  else st

/-- The back part of the `readmnt` loop body (dmnt.c lines 578-730): the
stat and supplement phases (dropping the line when they say so), entry
assembly, the `HasNFS = 2` / `MqueueDev` updates, and linking: a fresh
entry is prepended to `Lmi` (`mp->next = Lmi; Lmi = mp`), while a reused
duplicate entry of `/` is rewritten in place, keeping its position. -/
def processEntry (env : Env) (st : MntState) (p : PreInfo) (dup : Option (Nat × Mounts)) :
    MntState :=
  match statPhase env st.sup p with
  | none => st
  | some (ds, sb, sup2) =>
    let e := mkEntry env p ds sb
    let st2 := postFlags { st with sup := sup2 } p e
    match dup with
    | none => { st2 with lmi := e :: st2.lmi }
    | some (i, _) => { st2 with lmi := st2.lmi.set i e }

/-- The `if (!nfs && !HasNFS) HasNFS = 1;` update (dmnt.c line 558),
performed for every line that reaches the duplicate test, even one later
skipped or dropped. -/
def hasNfs1 (st : MntState) (p : PreInfo) : MntState :=
  if p.isNfs && st.hasNFS == 0 then { st with hasNFS := 1 } else st

/-- One full iteration of the `readmnt` loop (dmnt.c lines 456-731): the
front phase, the duplicate search, the `HasNFS = 1` update (performed for
every NFS line that reaches it, even one later skipped), and the
duplicate policy: a duplicate of a directory other than `/` is skipped;
for `/`, an already-NFS entry is kept, a non-NFS incoming line is
skipped, and an NFS incoming line rewrites the remembered entry. -/
def readmnt_line (env : Env) (st : MntState) (l : MntLine) : MntState :=
  match readmnt_pre env l with
  | none => st
  | some p =>
    match findDup st.lmi p.dn p.dnl with
    | none => processEntry env (hasNfs1 st p) p none
    | some (i, e) =>
      if p.dn ≠ strL "/" then hasNfs1 st p
      else if e.ty = MntTy.N_NFS then hasNfs1 st p
      else if !p.isNfs then hasNfs1 st p
      else processEntry env (hasNfs1 st p) p (some (i, e))

/-- `readmnt` (dmnt.c lines 424-749): the cache test `if (Lmi || Lmist)
return (Lmi);`, the open of `/proc/mounts` (failure returns null with the
state untouched), the line loop, and the final `Lmist = 1`.  Returns the
value of `Lmi` and the updated context state. -/
def readmnt (env : Env) (st : MntState) : List Mounts × MntState :=
  if st.lmi ≠ [] ∨ st.lmist = true then (st.lmi, st)
  else
    match env.mounts with
    | none => ([], st)
    | some lines =>
      let st2 := lines.foldl (readmnt_line env) st
      let st3 := { st2 with lmist := true }
      (st3.lmi, st3)

/-!  Concrete environments used by the witnesses and counterexamples. -/

/-- Environment whose supplement file has one valid and one malformed
line (`"bad"` has no leading `'/'`). -/
def cenvC1 : Env :=
  { mounts := none
    readlink := fun s => some s
    stat := fun _ => none
    efsysl := []
    mntSup := 2
    mntSupP := true
    supLines := some [strL "/ok 0x10", strL "bad"] }

/-- Environment with two ordinary mount lines for `/a` and `/b`, every
stat and readlink succeeding. -/
def cenvC4 : Env :=
  { mounts := some [⟨strL "dev1", strL "/a", strL "ext4"⟩, ⟨strL "dev2", strL "/b", strL "ext4"⟩]
    readlink := fun s => some s
    stat := fun _ => some ⟨1, 2, 3, 4⟩
    efsysl := []
    mntSup := 0
    mntSupP := false
    supLines := none }

/-- `cenvC4` with an unopenable mount table. -/
def cenvNone : Env := { cenvC4 with mounts := none }

/-- Environment with one mount line for `/a` whose stat fails, the
supplement configured, and a supplement file naming only `/b`. -/
def cenvC3 : Env :=
  { mounts := some [⟨strL "dev", strL "/a", strL "ext4"⟩]
    readlink := fun s => some s
    stat := fun _ => none
    efsysl := []
    mntSup := 2
    mntSupP := true
    supLines := some [strL "/b 0x5"] }

/-- Environment with one mount line whose file system type field is the
upper-case string `"MQUEUE"`. -/
def cenvC6 : Env :=
  { mounts := some [⟨strL "mq", strL "/dev/mqueue", strL "MQUEUE"⟩]
    readlink := fun s => some s
    stat := fun _ => some ⟨7, 0, 0, 0⟩
    efsysl := []
    mntSup := 0
    mntSupP := false
    supLines := none }

/-- Environment for single-line processing tests: identity readlink,
every stat yielding device 5. -/
def cenvRoot : Env :=
  { mounts := none
    readlink := fun s => some s
    stat := fun _ => some ⟨5, 6, 7, 8⟩
    efsysl := []
    mntSup := 0
    mntSupP := false
    supLines := none }

/-- A remembered non-NFS mount entry for `/`. -/
def centryRoot : Mounts :=
  ⟨strL "/", 1, SB_ALL, 9, 0, 0, 0, MntTy.N_REGLR, strL "old", some (strL "old"), 0⟩

/-- Context state already holding `centryRoot`. -/
def cstRoot : MntState := ⟨[centryRoot], false, 0, 0, supInit⟩

/-- An NFS mount line for `/`. -/
def clineRoot : MntLine := ⟨strL "srv:/x", strL "/", strL "nfs"⟩

/-- The `PreInfo` that `readmnt_pre` computes for `clineRoot` under
`cenvRoot`. -/
def cpRoot : PreInfo := ⟨strL "srv:/x", strL "/", 1, false, false, true, false⟩

/-- A lower-case mqueue mount line. -/
def clineMq : MntLine := ⟨strL "mq", strL "/dev/mqueue", strL "mqueue"⟩

/-- Environment carrying `clineMq` with a successful stat. -/
def cenvMq : Env := { cenvC6 with mounts := some [clineMq] }

/-- The `PreInfo` that `readmnt_pre` computes for `clineMq` under
`cenvMq`. -/
def cpMq : PreInfo := ⟨strL "mq", strL "/dev/mqueue", 11, false, false, false, true⟩

/-- An ordinary mount line for `/a`. -/
def clineA : MntLine := ⟨strL "dev", strL "/a", strL "ext4"⟩

/-- The `PreInfo` that `readmnt_pre` computes for `clineA` under an
identity-readlink environment. -/
def cpA : PreInfo := ⟨strL "dev", strL "/a", 2, false, false, false, false⟩

/-- Environment in which every stat fails and the supplement facility is
off. -/
def cenvDrop : Env :=
  { mounts := none
    readlink := fun s => some s
    stat := fun _ => none
    efsysl := []
    mntSup := 0
    mntSupP := false
    supLines := none }

/-- Environment in which every stat fails and the supplement facility is
configured (the supplement state is taken prebuilt from the context). -/
def cenvSup : Env := { cenvDrop with mntSup := 2, mntSupP := true }

/-- A prebuilt supplement bucket array holding only `/b` with device 5. -/
def ctblB : Nat → List MntSupEntry :=
  fun j => if j = hash_mnt (strL "/b") then [⟨strL "/b", 2, 5, 1⟩] else []

/-- Context state with `ctblB` already built. -/
def cstB : MntState := ⟨[], false, 0, 0, ⟨false, some ctblB⟩⟩

/-- A prebuilt supplement bucket array holding only `/a` with device
42. -/
def ctblA : Nat → List MntSupEntry :=
  fun j => if j = hash_mnt (strL "/a") then [⟨strL "/a", 2, 42, 7⟩] else []

/-- Context state with `ctblA` already built. -/
def cstA : MntState := ⟨[], false, 0, 0, ⟨false, some ctblA⟩⟩

/-!  Theorems. -/

theorem cvtLoop_short (l : List Char) (h : l.length < 4) : cvtLoop l = l := by
  match l with
  | [] => rfl
  | [a] => simp [cvtLoop]
  | [a, b] => simp [cvtLoop]
  | [a, b, c] => simp [cvtLoop]
  | a :: b :: c :: d :: t =>
    simp at h
    omega

/-- C5: On every input string, `convert_octal_escaped` replaces each
backslash followed by three octal digits with the single byte those
digits denote (`"/mnt/a\040b"` becomes `"/mnt/a b"`), while a backslash
followed by fewer than three octal digits — whether because a non-octal
character intervenes or because the string ends, as in a trailing
`"\04"` — is copied through literally unconverted. -/
theorem convert_octal_escaped_claim :
    (convert_octal_escaped (strL "/mnt/a\\040b") = some (strL "/mnt/a b")) ∧
    (∀ (d1 d2 d3 : Char) (rest : List Char),
      isOctalDigit d1 = true → isOctalDigit d2 = true → isOctalDigit d3 = true →
      cvtLoop ('\\' :: d1 :: d2 :: d3 :: rest)
        = Char.ofNat ((octVal d1 * 64 + octVal d2 * 8 + octVal d3) % 256) :: cvtLoop rest) ∧
    (∀ (d1 d2 d3 : Char) (rest : List Char),
      (isOctalDigit d1 && isOctalDigit d2 && isOctalDigit d3) = false →
      cvtLoop ('\\' :: d1 :: d2 :: d3 :: rest) = '\\' :: cvtLoop (d1 :: d2 :: d3 :: rest)) ∧
    (∀ tail : List Char, tail.length < 3 → cvtLoop ('\\' :: tail) = '\\' :: tail) ∧
    (convert_octal_escaped (strL "/mnt/a\\04") = some (strL "/mnt/a\\04")) := by
  refine ⟨by decide, ?_, ?_, ?_, by decide⟩
  · intro d1 d2 d3 rest h1 h2 h3
    simp [cvtLoop, h1, h2, h3]
  · intro d1 d2 d3 rest h
    simp [cvtLoop, h]
  · intro tail h
    exact cvtLoop_short ('\\' :: tail) (by simp; omega)

/-- Witness for C5 at concrete inputs: converting `"\040b"` after a
backslash, and copying a trailing `"\04"` literally. -/
theorem convert_octal_escaped_claim_witness :
    cvtLoop ('\\' :: '0' :: '4' :: '0' :: strL "b")
      = Char.ofNat ((octVal '0' * 64 + octVal '4' * 8 + octVal '0') % 256) :: cvtLoop (strL "b") ∧
    cvtLoop ('\\' :: strL "04") = '\\' :: strL "04" :=
  ⟨convert_octal_escaped_claim.2.1 '0' '4' '0' (strL "b") (by decide) (by decide) (by decide),
   convert_octal_escaped_claim.2.2.2.1 (strL "04") (by decide)⟩

/-- C10: For every string, including the empty string, `hash_mnt` returns
a bucket index between 0 and `HASHMNT - 1` and depends only on the
string's characters, so insertion and lookup of equal paths address the
same in-bounds bucket. -/
theorem hash_mnt_claim (s : List Char) :
    hash_mnt s < HASHMNT ∧ ∀ t : List Char, s = t → hash_mnt s = hash_mnt t := by
  constructor
  · match s with
    | [] => decide
    | [c] => exact Nat.lt_of_le_of_lt Nat.and_le_right (by decide)
    | a :: b :: l => exact Nat.lt_of_le_of_lt Nat.and_le_right (by decide)
  · intro t h
    rw [h]

/-- Witness for C10 at the one-character path `"/"`. -/
theorem hash_mnt_claim_witness :
    hash_mnt (strL "/") < HASHMNT ∧ hash_mnt (strL "/") = hash_mnt (strL "/") :=
  ⟨(hash_mnt_claim (strL "/")).1, (hash_mnt_claim (strL "/")).2 (strL "/") rfl⟩

theorem buildStep_error_mono (q : Nat) (st : BuildSt) (line : List Char)
    (h : st.error = true) : (buildStep q st line).error = true := by
  unfold buildStep
  cases hp : parseSupLine line with
  | none => simp
  | some pd =>
    obtain ⟨path, dev⟩ := pd
    simp only
    cases hf : supBuildFind ((st.table.getD (fun _ => [])) (hash_mnt path)) path q with
    | none => simpa using h
    | some mp =>
      by_cases hd : mp.dev = dev <;> simp [hd, h]

theorem buildStep_error_of_malformed (q : Nat) (st : BuildSt) (line : List Char)
    (h : parseSupLine line = none) : (buildStep q st line).error = true := by
  simp [buildStep, h]

theorem foldl_buildStep_error_mono (q : Nat) (lines : List (List Char)) (st : BuildSt)
    (h : st.error = true) : (lines.foldl (buildStep q) st).error = true := by
  induction lines generalizing st with
  | nil => simpa using h
  | cons a rest ih =>
    simp only [List.foldl_cons]
    exact ih _ (buildStep_error_mono q st a h)

theorem foldl_buildStep_error_of_malformed (q : Nat) (lines : List (List Char)) (st : BuildSt)
    (h : ∃ l ∈ lines, parseSupLine l = none) :
    (lines.foldl (buildStep q) st).error = true := by
  induction lines generalizing st with
  | nil => obtain ⟨l, hl, _⟩ := h; cases hl
  | cons a rest ih =>
    simp only [List.foldl_cons]
    obtain ⟨l, hl, hb⟩ := h
    rcases List.mem_cons.mp hl with rfl | hmem
    · exact foldl_buildStep_error_mono q rest _ (buildStep_error_of_malformed q st l hb)
    · exact ih _ ⟨l, hmem, hb⟩

theorem buildSup_error_of_malformed (q : Nat) (lines : List (List Char))
    (h : ∃ l ∈ lines, parseSupLine l = none) : buildSup q lines = ⟨true, none⟩ := by
  have hb := foldl_buildStep_error_of_malformed q lines ⟨false, none, 0⟩ h
  simp [buildSup, hb]

/-- C1: If any line of the mount supplement file fails validation during
table construction (no leading `'/'`, missing `" 0x"` after the path, or
a malformed hex device number — exactly the cases where `parseSupLine`
returns `none`), then the triggering `getmntdev` call reports "not
found", the error flag is set with the table freed, and every subsequent
call — for any path, any environment — returns "not found" with the state
unchanged: the table is never rebuilt. -/
theorem supplement_fail_closed (env : Env) (lines : List (List Char)) (l0 : List Char)
    (hls : env.supLines = some lines) (hm : env.mntSup = 2) (hp : env.mntSupP = true)
    (hmem : l0 ∈ lines) (hbad : parseSupLine l0 = none)
    (dn : List Char) (dnl : Nat) (s : StatBuf) (ss : SBFlags) :
    getmntdev env supInit dn dnl s ss = ⟨false, s, ss, ⟨true, none⟩⟩ ∧
    ∀ (env2 : Env) (dn2 : List Char) (dnl2 : Nat) (s2 : StatBuf) (ss2 : SBFlags),
      getmntdev env2 ⟨true, none⟩ dn2 dnl2 s2 ss2 = ⟨false, s2, ss2, ⟨true, none⟩⟩ := by
  constructor
  · have hb := buildSup_error_of_malformed dnl lines ⟨l0, hmem, hbad⟩
    simp [getmntdev, supInit, hm, hp, hls, hb]
  · intro env2 dn2 dnl2 s2 ss2
    simp [getmntdev]

/-- Witness for C1: a supplement file with a valid line `"/ok 0x10"` and
a malformed line `"bad"`; the lookup of `"/ok"` — a path that appeared on
a valid line — reports not found, and stays not found from the error
state. -/
theorem supplement_fail_closed_witness :
    getmntdev cenvC1 supInit (strL "/ok") 3 sb0 SB_NONE = ⟨false, sb0, SB_NONE, ⟨true, none⟩⟩ ∧
    getmntdev cenvC1 ⟨true, none⟩ (strL "/ok") 3 sb0 SB_NONE
      = ⟨false, sb0, SB_NONE, ⟨true, none⟩⟩ := by
  have h := supplement_fail_closed cenvC1 [strL "/ok 0x10", strL "bad"] (strL "bad")
    rfl rfl rfl (by simp) (by decide) (strL "/ok") 3 sb0 SB_NONE
  exact ⟨h.1, h.2 cenvC1 (strL "/ok") 3 sb0 SB_NONE⟩

/-- C7 evaluation (code bug): building the supplement table from the two
lines `"/a 0x1"` and `"/a 0x2"` — a duplicate path with different device
numbers.  When the lookup that triggers construction is for a directory
name of length 1 (e.g. `"/"`), the duplicate is not detected: no error is
recorded and both entries sit in the bucket of `"/a"` (the later line in
front), because the build-time search compares the stored entry's length
against `getmntdev`'s `dir_name_len` parameter instead of the supplement
line's own path length.  The same file scanned while looking up a
length-2 name does flag the duplicate, and a duplicate with identical
device numbers is skipped, leaving one entry. -/
theorem supplement_dup_build_eval :
    (buildSup 1 [strL "/a 0x1", strL "/a 0x2"]).error = false ∧
    (((buildSup 1 [strL "/a 0x1", strL "/a 0x2"]).table.getD (fun _ => []))
        (hash_mnt (strL "/a"))).map MntSupEntry.dev = [2, 1] ∧
    (buildSup 2 [strL "/a 0x1", strL "/a 0x2"]).error = true ∧
    (buildSup 2 [strL "/a 0x1", strL "/a 0x1"]).error = false ∧
    (((buildSup 2 [strL "/a 0x1", strL "/a 0x1"]).table.getD (fun _ => []))
        (hash_mnt (strL "/a"))).map MntSupEntry.dev = [1] := by
  refine ⟨by decide, by decide, by decide, by decide, by decide⟩

theorem hasNfs1_lmi (st : MntState) (p : PreInfo) : (hasNfs1 st p).lmi = st.lmi := by
  unfold hasNfs1
  split <;> rfl

theorem hasNfs1_sup (st : MntState) (p : PreInfo) : (hasNfs1 st p).sup = st.sup := by
  unfold hasNfs1
  split <;> rfl

theorem hasNfs1_mq (st : MntState) (p : PreInfo) :
    (hasNfs1 st p).mqueueDev = st.mqueueDev := by
  unfold hasNfs1
  split <;> rfl

theorem postFlags_lmi (st : MntState) (p : PreInfo) (e : Mounts) :
    (postFlags st p e).lmi = st.lmi := by
  unfold postFlags
  split
  · split <;> rfl
  · split <;> rfl

theorem postFlags_mq (st : MntState) (p : PreInfo) (e : Mounts)
    (h1 : p.isNfs = false) (h2 : p.isMqueue = true) :
    (postFlags st p e).mqueueDev = e.dev := by
  simp [postFlags, h1, h2]

theorem processEntry_drop (env : Env) (st : MntState) (p : PreInfo)
    (dup : Option (Nat × Mounts)) (h : statPhase env st.sup p = none) :
    processEntry env st p dup = st := by
  simp [processEntry, h]

theorem processEntry_cons_lmi (env : Env) (st : MntState) (p : PreInfo)
    (ds : SBFlags) (sb : StatBuf) (sup2 : SupState)
    (h : statPhase env st.sup p = some (ds, sb, sup2)) :
    (processEntry env st p none).lmi = mkEntry env p ds sb :: st.lmi := by
  simp [processEntry, h, postFlags_lmi]

theorem processEntry_set_lmi (env : Env) (st : MntState) (p : PreInfo)
    (ds : SBFlags) (sb : StatBuf) (sup2 : SupState) (i : Nat) (e0 : Mounts)
    (h : statPhase env st.sup p = some (ds, sb, sup2)) :
    (processEntry env st p (some (i, e0))).lmi = st.lmi.set i (mkEntry env p ds sb) := by
  simp [processEntry, h, postFlags_lmi]

theorem processEntry_mq (env : Env) (st : MntState) (p : PreInfo)
    (ds : SBFlags) (sb : StatBuf) (sup2 : SupState)
    (h : statPhase env st.sup p = some (ds, sb, sup2))
    (h1 : p.isNfs = false) (h2 : p.isMqueue = true) :
    (processEntry env st p none).mqueueDev = (mkEntry env p ds sb).dev := by
  simp [processEntry, h, postFlags_mq _ _ _ h1 h2]

theorem findDup_some (l : List Mounts) (dn : List Char) (dnl : Nat) (i : Nat) (e : Mounts)
    (h : findDup l dn dnl = some (i, e)) : l.get? i = some e ∧ e.dir = dn := by
  induction l generalizing i with
  | nil => simp [findDup] at h
  | cons m rest ih =>
    rw [findDup] at h
    by_cases hc : (m.dirl == dnl && m.dir == dn) = true
    · rw [if_pos hc] at h
      cases h
      refine ⟨rfl, ?_⟩
      exact beq_iff_eq.mp ((Bool.and_eq_true _ _).mp hc).2
    · rw [if_neg hc] at h
      cases hfd : findDup rest dn dnl with
      | none => rw [hfd] at h; cases h
      | some pe =>
        obtain ⟨j, e2⟩ := pe
        rw [hfd] at h
        cases h
        obtain ⟨hg, hd⟩ := ih j hfd
        exact ⟨by simpa using hg, hd⟩

theorem map_dir_set (l : List Mounts) (i : Nat) (e e2 : Mounts)
    (h : l.get? i = some e) (hd : e2.dir = e.dir) :
    (l.set i e2).map Mounts.dir = l.map Mounts.dir := by
  induction l generalizing i with
  | nil => simp at h
  | cons m rest ih =>
    cases i with
    | zero =>
      have hm : m = e := by simpa using h
      show (e2 :: rest).map Mounts.dir = (m :: rest).map Mounts.dir
      simp [hd, hm]
    | succ j =>
      have h2 : rest.get? j = some e := by simpa using h
      show (m :: rest.set j e2).map Mounts.dir = (m :: rest).map Mounts.dir
      simp only [List.map_cons]
      rw [ih j h2]

theorem getmntdev_table (env : Env) (sup : SupState) (dn : List Char) (dnl : Nat)
    (s : StatBuf) (ss : SBFlags) (tbl : Nat → List MntSupEntry)
    (he : sup.error = false) (ht : sup.table = some tbl) :
    getmntdev env sup dn dnl s ss = gmdLookup tbl sup dn dnl s ss := by
  simp [getmntdev, he, ht]

theorem readmnt_pre_fields (env : Env) (l : MntLine) (p : PreInfo)
    (h : readmnt_pre env l = some p) :
    p.isNfs = (streqCI l.fp2 (strL "nfs") || streqCI l.fp2 (strL "nfs3")
      || streqCI l.fp2 (strL "nfs4")) ∧
    p.isMqueue = (l.fp2 == strL "mqueue") := by
  unfold readmnt_pre at h
  split at h
  case _ fp0 fp1 =>
    split at h
    · cases h
    · split at h
      · cases h
      · dsimp only at h
        split at h
        · cases h
        · split at h
          · cases h
            exact ⟨rfl, rfl⟩
          · cases h
  case _ => cases h

/-- C2 (dedup policy): when a mount line's resolved directory duplicates
a remembered entry — `findDup` hits entry `e` at position `i` — then:
if the directory is not `/`, the line is skipped and the entry list is
unchanged (the earlier entry is kept); if the remembered entry for `/` is
NFS, the list is also unchanged whatever the new line is; and if the
remembered entry for `/` is not NFS while the incoming line is NFS and
survives the stat phase, the remembered entry is overwritten in place by
the new NFS entry — so for `/` the NFS candidate is the retained entry in
either arrival order. -/
theorem readmnt_dedup (env : Env) (st : MntState) (l : MntLine) (p : PreInfo)
    (i : Nat) (e : Mounts)
    (hpre : readmnt_pre env l = some p)
    (hdup : findDup st.lmi p.dn p.dnl = some (i, e)) :
    (p.dn ≠ strL "/" → (readmnt_line env st l).lmi = st.lmi) ∧
    (e.ty = MntTy.N_NFS → (readmnt_line env st l).lmi = st.lmi) ∧
    (∀ (ds : SBFlags) (sb : StatBuf) (sup2 : SupState),
      p.dn = strL "/" → e.ty ≠ MntTy.N_NFS → p.isNfs = true →
      statPhase env st.sup p = some (ds, sb, sup2) →
      (readmnt_line env st l).lmi = st.lmi.set i (mkEntry env p ds sb) ∧
      (mkEntry env p ds sb).ty = MntTy.N_NFS) := by
  refine ⟨?_, ?_, ?_⟩
  · intro hdn
    simp [readmnt_line, hpre, hdup, hdn, hasNfs1_lmi]
  · intro hty
    by_cases hdn : p.dn = strL "/"
    · rw [hdn] at hdup
      simp [readmnt_line, hpre, hdup, hdn, hty, hasNfs1_lmi]
    · simp [readmnt_line, hpre, hdup, hdn, hasNfs1_lmi]
  · intro ds sb sup2 hdn hty hnfs hstat
    rw [hdn] at hdup
    have hred : readmnt_line env st l = processEntry env (hasNfs1 st p) p (some (i, e)) := by
      simp [readmnt_line, hpre, hdup, hdn, hty, hnfs, hasNfs1]
    have hstat2 : statPhase env (hasNfs1 st p).sup p = some (ds, sb, sup2) := by
      rw [hasNfs1_sup]
      exact hstat
    constructor
    · rw [hred, processEntry_set_lmi _ _ _ _ _ _ _ _ hstat2, hasNfs1_lmi]
    · simp [mkEntry, hnfs]

/-- Witness for C2: a context already holding a regular entry for `/`
receives an NFS line for `/`; the entry is rewritten in place and the
retained entry is NFS. -/
theorem readmnt_dedup_witness :
    (readmnt_line cenvRoot cstRoot clineRoot).lmi
      = cstRoot.lmi.set 0 (mkEntry cenvRoot cpRoot SB_ALL ⟨5, 6, 7, 8⟩) ∧
    (mkEntry cenvRoot cpRoot SB_ALL ⟨5, 6, 7, 8⟩).ty = MntTy.N_NFS :=
  (readmnt_dedup cenvRoot cstRoot clineRoot cpRoot 0 centryRoot (by decide) (by decide)).2.2
    SB_ALL ⟨5, 6, 7, 8⟩ supInit rfl (by decide) rfl rfl

/-- C4 counterexample: two accepted mount lines for `/a` then `/b`
produce the cached list `[/b, /a]` — the reverse of the mount-table
order, because each accepted line is prepended to `Lmi` — so the list is
not ordered identically to the source order. -/
theorem readmnt_order_counterexample :
    ((readmnt cenvC4 mntInit).1).map Mounts.dir = [strL "/b", strL "/a"] ∧
    ([strL "/b", strL "/a"] : List (List Char)) ≠ [strL "/a", strL "/b"] :=
  ⟨by decide, by decide⟩

/-- C4 amended: entries are inserted in mount-table order but each new
entry is prepended, so the cached list is ordered in *reverse* of the
mount-table source (head = most recently accepted line); every loop
iteration either leaves the directory list unchanged (skips, drops, and
the in-place rewrite of a duplicate `/` entry) or prepends one new
directory, as the concrete run producing `[/b, /a]` from the source order
`/a, /b` shows. -/
theorem readmnt_order_amended :
    (∀ (env : Env) (st : MntState) (l : MntLine),
      (readmnt_line env st l).lmi.map Mounts.dir = st.lmi.map Mounts.dir ∨
      ∃ d, (readmnt_line env st l).lmi.map Mounts.dir = d :: st.lmi.map Mounts.dir) ∧
    ((readmnt cenvC4 mntInit).1).map Mounts.dir = [strL "/b", strL "/a"] := by
  constructor
  · intro env st l
    cases hpre : readmnt_pre env l with
    | none =>
      left
      simp [readmnt_line, hpre]
    | some p =>
      cases hdup : findDup st.lmi p.dn p.dnl with
      | none =>
        cases hsp : statPhase env st.sup p with
        | none =>
          left
          have h2 : statPhase env (hasNfs1 st p).sup p = none := by
            rw [hasNfs1_sup]; exact hsp
          simp [readmnt_line, hpre, hdup, processEntry_drop _ _ _ _ h2, hasNfs1_lmi]
        | some x =>
          obtain ⟨ds, sb, sup2⟩ := x
          right
          have h2 : statPhase env (hasNfs1 st p).sup p = some (ds, sb, sup2) := by
            rw [hasNfs1_sup]; exact hsp
          refine ⟨(mkEntry env p ds sb).dir, ?_⟩
          simp [readmnt_line, hpre, hdup, processEntry_cons_lmi _ _ _ _ _ _ h2, hasNfs1_lmi]
      | some pe =>
        obtain ⟨i, e⟩ := pe
        left
        obtain ⟨hget, hdir⟩ := findDup_some st.lmi p.dn p.dnl i e hdup
        by_cases hdn : p.dn = strL "/"
        · rw [hdn] at hdup
          by_cases hty : e.ty = MntTy.N_NFS
          · simp [readmnt_line, hpre, hdup, hdn, hty, hasNfs1_lmi]
          · cases hnfs : p.isNfs with
            | false =>
              simp [readmnt_line, hpre, hdup, hdn, hty, hnfs, hasNfs1_lmi]
            | true =>
              cases hsp : statPhase env st.sup p with
              | none =>
                have h2 : statPhase env (hasNfs1 st p).sup p = none := by
                  rw [hasNfs1_sup]; exact hsp
                simp [readmnt_line, hpre, hdup, hdn, hty, hnfs,
                  processEntry_drop _ _ _ _ h2, hasNfs1_lmi]
              | some x =>
                obtain ⟨ds, sb, sup2⟩ := x
                have h2 : statPhase env (hasNfs1 st p).sup p = some (ds, sb, sup2) := by
                  rw [hasNfs1_sup]; exact hsp
                have hset := processEntry_set_lmi env (hasNfs1 st p) p ds sb sup2 i e h2
                have hred : readmnt_line env st l
                    = processEntry env (hasNfs1 st p) p (some (i, e)) := by
                  simp [readmnt_line, hpre, hdup, hdn, hty, hnfs, hasNfs1]
                rw [hred, hset, hasNfs1_lmi]
                exact map_dir_set st.lmi i e (mkEntry env p ds sb) hget (by rw [hdir]; rfl)
        · simp [readmnt_line, hpre, hdup, hdn, hasNfs1_lmi]
  · decide

/-- C8: calling `readmnt` a second time on a context in which a first
call has completed (the mount table source was readable) returns exactly
the same result with the state unchanged, whatever environment — even one
whose mount source differs or cannot be opened — the second call runs
under: the source is not re-read. -/
theorem readmnt_cached (env1 env2 : Env) (st : MntState) (ls : List MntLine)
    (h : env1.mounts = some ls) :
    readmnt env2 (readmnt env1 st).2 = readmnt env1 st := by
  by_cases hc : st.lmi ≠ [] ∨ st.lmist = true
  · have h1 : readmnt env1 st = (st.lmi, st) := by
      unfold readmnt
      rw [if_pos hc]
    rw [h1]
    unfold readmnt
    rw [if_pos hc]
  · have h1 : readmnt env1 st
        = (({ ls.foldl (readmnt_line env1) st with lmist := true } : MntState).lmi,
           ({ ls.foldl (readmnt_line env1) st with lmist := true } : MntState)) := by
      unfold readmnt
      rw [if_neg hc, h]
    rw [h1]
    unfold readmnt
    rw [if_pos (Or.inr rfl)]

/-- Witness for C8: after a completed first call under `cenvC4`, a second
call under `cenvNone` — whose mount table cannot even be opened — returns
the identical cached result. -/
theorem readmnt_cached_witness :
    readmnt cenvNone (readmnt cenvC4 mntInit).2 = readmnt cenvC4 mntInit :=
  readmnt_cached cenvC4 cenvNone mntInit
    [⟨strL "dev1", strL "/a", strL "ext4"⟩, ⟨strL "dev2", strL "/b", strL "ext4"⟩] rfl

/-- C3 counterexample: under `cenvC3` the stat of `/a` fails, `/a` is not
exempted (the exemption list is empty), and the configured supplement
table (holding only `/b`) offers no override for `/a` — yet the line is
*not* dropped: an entry for `/a` is created with every stat-derived
validity bit clear. -/
theorem readmnt_statfail_counterexample :
    ((readmnt cenvC3 mntInit).1).map Mounts.dir = [strL "/a"] ∧
    ((readmnt cenvC3 mntInit).1).map Mounts.ds = [SB_NONE] ∧
    supLookup ((buildSup 2 [strL "/b 0x5"]).table.getD (fun _ => [])) (strL "/a") 2 = none ∧
    cenvC3.efsysl = [] :=
  ⟨by decide, by decide, by decide, rfl⟩

/-- C3 amended: when the stat of the resolved mount point fails and the
path was not explicitly exempted from stat, the line is dropped exactly
when the supplement lookup facility is *not configured* (`MntSup ≠ 2` or
no supplement path); when the facility is configured, the line is kept
even if no override matches the path, as an entry whose stat-derived
fields are all invalid. -/
theorem readmnt_statfail_amended (env : Env) (st : MntState) (l : MntLine) (p : PreInfo)
    (hpre : readmnt_pre env l = some p)
    (hig : p.ignstat = false)
    (hstat : env.stat p.dn = none) :
    (¬(env.mntSup = 2 ∧ env.mntSupP = true) → (readmnt_line env st l).lmi = st.lmi) ∧
    (∀ tbl : Nat → List MntSupEntry,
      env.mntSup = 2 → env.mntSupP = true →
      st.sup.error = false → st.sup.table = some tbl →
      supLookup tbl p.dn p.dnl = none →
      findDup st.lmi p.dn p.dnl = none →
      (readmnt_line env st l).lmi = mkEntry env p SB_NONE sb0 :: st.lmi ∧
      (mkEntry env p SB_NONE sb0).ds = SB_NONE) := by
  constructor
  · intro hcfg
    have hsp : statPhase env st.sup p = none := by
      simp [statPhase, hig, hstat, supPhase, hcfg]
    have h2 : statPhase env (hasNfs1 st p).sup p = none := by
      rw [hasNfs1_sup]; exact hsp
    cases hdup : findDup st.lmi p.dn p.dnl with
    | none =>
      simp [readmnt_line, hpre, hdup, processEntry_drop _ _ _ _ h2, hasNfs1_lmi]
    | some pe =>
      obtain ⟨i, e⟩ := pe
      by_cases hdn : p.dn = strL "/"
      · rw [hdn] at hdup
        by_cases hty : e.ty = MntTy.N_NFS
        · simp [readmnt_line, hpre, hdup, hdn, hty, hasNfs1_lmi]
        · cases hnfs : p.isNfs with
          | false => simp [readmnt_line, hpre, hdup, hdn, hty, hnfs, hasNfs1_lmi]
          | true =>
            simp [readmnt_line, hpre, hdup, hdn, hty, hnfs,
              processEntry_drop _ _ _ _ h2, hasNfs1_lmi]
      · simp [readmnt_line, hpre, hdup, hdn, hasNfs1_lmi]
  · intro tbl hm hp2 herr htbl hlook hdup
    have hgm : getmntdev env st.sup p.dn p.dnl sb0 SB_NONE = ⟨false, sb0, SB_NONE, st.sup⟩ := by
      rw [getmntdev_table env st.sup p.dn p.dnl sb0 SB_NONE tbl herr htbl]
      simp [gmdLookup, hlook]
    have hsp : statPhase env st.sup p = some (SB_NONE, sb0, st.sup) := by
      simp [statPhase, hig, hstat, supPhase, hm, hp2, hgm]
    have h2 : statPhase env (hasNfs1 st p).sup p = some (SB_NONE, sb0, st.sup) := by
      rw [hasNfs1_sup]; exact hsp
    refine ⟨?_, rfl⟩
    simp [readmnt_line, hpre, hdup, processEntry_cons_lmi _ _ _ _ _ _ h2, hasNfs1_lmi]

/-- Witness for C3 (amended): with the facility off (`cenvDrop`) the
failed-stat line for `/a` creates no entry; with it configured and a
table holding only `/b` (`cenvSup`, `cstB`), the same line is kept with
all validity bits clear. -/
theorem readmnt_statfail_amended_witness :
    (readmnt_line cenvDrop mntInit clineA).lmi = mntInit.lmi ∧
    (readmnt_line cenvSup cstB clineA).lmi = mkEntry cenvSup cpA SB_NONE sb0 :: cstB.lmi := by
  constructor
  · exact (readmnt_statfail_amended cenvDrop mntInit clineA cpA (by decide) rfl rfl).1
      (by decide)
  · exact ((readmnt_statfail_amended cenvSup cstB clineA cpA (by decide) rfl rfl).2
      ctblB rfl rfl rfl rfl rfl rfl).1

/-- C6 counterexample: the file system type name `"MQUEUE"` equals
`"mqueue"` ignoring case, yet the accepted line is classified as a
regular entry and the remembered mqueue device id stays 0, because the
mqueue test is the case-sensitive `strcmp(fp[2], "mqueue")`. -/
theorem readmnt_classify_counterexample :
    streqCI (strL "MQUEUE") (strL "mqueue") = true ∧
    ((readmnt cenvC6 mntInit).1).map Mounts.ty = [MntTy.N_REGLR] ∧
    (readmnt cenvC6 mntInit).2.mqueueDev = 0 :=
  ⟨by decide, by decide, by decide⟩

/-- C6 amended: for every accepted mount line, a type name equal to
`nfs`, `nfs3` or `nfs4` *ignoring case* yields an NFS entry; a name
*exactly* equal to `"mqueue"` (case-sensitively) yields a message-queue
entry whose device id is remembered in the context-wide `MqueueDev`;
every other name yields a regular entry. -/
theorem readmnt_classify_amended (env : Env) (st : MntState) (l : MntLine) (p : PreInfo)
    (ds : SBFlags) (sb : StatBuf) (sup2 : SupState)
    (hpre : readmnt_pre env l = some p)
    (hdup : findDup st.lmi p.dn p.dnl = none)
    (hsp : statPhase env st.sup p = some (ds, sb, sup2)) :
    (readmnt_line env st l).lmi = mkEntry env p ds sb :: st.lmi ∧
    (mkEntry env p ds sb).ty
      = (if streqCI l.fp2 (strL "nfs") || streqCI l.fp2 (strL "nfs3")
            || streqCI l.fp2 (strL "nfs4") then MntTy.N_NFS
         else if l.fp2 == strL "mqueue" then MntTy.N_MQUEUE else MntTy.N_REGLR) ∧
    ((l.fp2 == strL "mqueue") = true →
      (streqCI l.fp2 (strL "nfs") || streqCI l.fp2 (strL "nfs3")
        || streqCI l.fp2 (strL "nfs4")) = false →
      (readmnt_line env st l).mqueueDev = (mkEntry env p ds sb).dev) := by
  obtain ⟨hnfs, hmq⟩ := readmnt_pre_fields env l p hpre
  have h2 : statPhase env (hasNfs1 st p).sup p = some (ds, sb, sup2) := by
    rw [hasNfs1_sup]; exact hsp
  refine ⟨?_, ?_, ?_⟩
  · simp [readmnt_line, hpre, hdup, processEntry_cons_lmi _ _ _ _ _ _ h2, hasNfs1_lmi]
  · show (if p.isNfs = true then MntTy.N_NFS
        else if p.isMqueue = true then MntTy.N_MQUEUE else MntTy.N_REGLR) = _
    rw [hnfs, hmq]
  · intro hmqt hnfsf
    have hnfs2 : p.isNfs = false := by rw [hnfs, hnfsf]
    have hmq2 : p.isMqueue = true := by rw [hmq, hmqt]
    have hml := processEntry_mq env (hasNfs1 st p) p ds sb sup2 h2 hnfs2 hmq2
    have hred : readmnt_line env st l = processEntry env (hasNfs1 st p) p none := by
      simp [readmnt_line, hpre, hdup]
    rw [hred, hml]

/-- Witness for C6 (amended): the lower-case `"mqueue"` line is accepted
as a message-queue entry and its device id is remembered. -/
theorem readmnt_classify_amended_witness :
    (readmnt_line cenvMq mntInit clineMq).lmi
      = mkEntry cenvMq cpMq SB_ALL ⟨7, 0, 0, 0⟩ :: mntInit.lmi ∧
    (readmnt_line cenvMq mntInit clineMq).mqueueDev
      = (mkEntry cenvMq cpMq SB_ALL ⟨7, 0, 0, 0⟩).dev := by
  have h := readmnt_classify_amended cenvMq mntInit clineMq cpMq SB_ALL ⟨7, 0, 0, 0⟩ supInit
    (by decide) rfl rfl
  exact ⟨h.1, h.2.2 (by decide) (by decide)⟩

/-- C9: when the stat of a mount point fails and the supplement lookup
succeeds with entry `mp`, the stat buffer is zeroed in full with only the
device id from `mp` stored, only the `SB_DEV` validity bit is set in the
status word, and the mount entry built from it carries `ds` with only the
dev bit, `dev = mp.dev`, and `rdev`, `inode` and `mode` stored as 0. -/
theorem supplement_hit_entry (env : Env) (st : MntState) (l : MntLine) (p : PreInfo)
    (tbl : Nat → List MntSupEntry) (mp : MntSupEntry)
    (hpre : readmnt_pre env l = some p)
    (hig : p.ignstat = false)
    (hstat : env.stat p.dn = none)
    (hm : env.mntSup = 2) (hp2 : env.mntSupP = true)
    (herr : st.sup.error = false) (htbl : st.sup.table = some tbl)
    (hfind : supLookup tbl p.dn p.dnl = some mp)
    (hdup : findDup st.lmi p.dn p.dnl = none) :
    (readmnt_line env st l).lmi
      = mkEntry env p ⟨true, false, false, false⟩ ⟨mp.dev, 0, 0, 0⟩ :: st.lmi ∧
    (mkEntry env p ⟨true, false, false, false⟩ ⟨mp.dev, 0, 0, 0⟩).ds
      = ⟨true, false, false, false⟩ ∧
    (mkEntry env p ⟨true, false, false, false⟩ ⟨mp.dev, 0, 0, 0⟩).dev = mp.dev ∧
    (mkEntry env p ⟨true, false, false, false⟩ ⟨mp.dev, 0, 0, 0⟩).rdev = 0 ∧
    (mkEntry env p ⟨true, false, false, false⟩ ⟨mp.dev, 0, 0, 0⟩).inode = 0 ∧
    (mkEntry env p ⟨true, false, false, false⟩ ⟨mp.dev, 0, 0, 0⟩).mode = 0 := by
  have hgm : getmntdev env st.sup p.dn p.dnl sb0 SB_NONE
      = ⟨true, ⟨mp.dev, 0, 0, 0⟩, ⟨true, false, false, false⟩, st.sup⟩ := by
    rw [getmntdev_table env st.sup p.dn p.dnl sb0 SB_NONE tbl herr htbl]
    simp [gmdLookup, hfind, SB_NONE]
  have hsp : statPhase env st.sup p
      = some (⟨true, false, false, false⟩, ⟨mp.dev, 0, 0, 0⟩, st.sup) := by
    simp [statPhase, hig, hstat, supPhase, hm, hp2, hgm]
  have h2 : statPhase env (hasNfs1 st p).sup p
      = some (⟨true, false, false, false⟩, ⟨mp.dev, 0, 0, 0⟩, st.sup) := by
    rw [hasNfs1_sup]; exact hsp
  refine ⟨?_, rfl, rfl, rfl, rfl, rfl⟩
  simp [readmnt_line, hpre, hdup, processEntry_cons_lmi _ _ _ _ _ _ h2, hasNfs1_lmi]

/-- Witness for C9: a failed stat of `/a` with a prebuilt supplement
table mapping `/a` to device 42 yields an entry with `dev = 42` and only
the dev validity bit. -/
theorem supplement_hit_entry_witness :
    (readmnt_line cenvSup cstA clineA).lmi
      = mkEntry cenvSup cpA ⟨true, false, false, false⟩ ⟨42, 0, 0, 0⟩ :: cstA.lmi ∧
    (mkEntry cenvSup cpA ⟨true, false, false, false⟩ ⟨42, 0, 0, 0⟩).dev = 42 := by
  have h := supplement_hit_entry cenvSup cstA clineA cpA ctblA ⟨strL "/a", 2, 42, 7⟩
    (by decide) rfl rfl rfl rfl rfl rfl rfl rfl
  exact ⟨h.1, h.2.2.1⟩

end Dmnt
